import Mathlib

/-!
# plugin/kube/application.go

A shallow embedding of the Kubernetes adapter for the `Application` resource:
the two record mappings `toAppModel` / `fromAppModel`, the list mapping
`toAppListModel`, and the five operations that delegate to the generated client.

Conventions of the embedding.

* A Go pointer is an `Option`; dereferencing `none` is a run-time panic, and a
  function that can panic returns `Except String _` with the panic as `error`.
* A Go `(result, error)` pair is a pair of `Option`s.
* The Kubernetes client is a parameter (`Client`); every operation also records
  the client calls it makes, in order (`Run.calls`).
* `time.Now()` and the debug log of the call latency are not modelled.
* Declarations that live outside this file (constants and record types of other
  packages) are collected in `Decls` and are parameters of every definition.
-/

namespace Kube

/-! ## Go values -/

/-- Location of a `time.Time`. -/
inductive Location
  | utc
  | zone (name : String) (offsetSeconds : Int)
  deriving DecidableEq, Repr

/-- A `time.Time`: an instant (nanoseconds counted from the zero instant) and the
location it is displayed in. -/
structure Time where
  instant : Int
  loc : Location
  deriving DecidableEq, Repr

/-- The zero value `time.Time{}`; its location is UTC. -/
def Time.zero : Time := { instant := 0, loc := Location.utc }

/-- The method `t.UTC()`: the same instant with the location set to UTC. -/
def Time.UTC (t : Time) : Time := { t with loc := Location.utc }

/-- A `map[string]string`; `none` is the nil map. -/
abbrev StringMap := Option (List (String × String))

/-- The two-valued index expression `v, ok := m[k]`; a nil map and a missing key
both give the zero value and `false`. -/
def mapIndex (m : StringMap) (k : String) : String × Bool :=
  match m with
  | none => ("", false)
  | some l =>
    match l.lookup k with
    | none => ("", false)
    | some v => (v, true)

/-- The assignment `m[k] = v` on a non-nil map. -/
def mapAssign (l : List (String × String)) (k v : String) : List (String × String) :=
  (k, v) :: l.filter (fun p => p.1 ≠ k)

/-- A Go `error` value. -/
abbrev Error := String

/-- The panic of a nil pointer dereference. -/
def nilDeref : String := "invalid memory address or nil pointer dereference"

/-! ## Records -/

namespace metav1

structure TypeMeta where
  Kind : String
  APIVersion : String
  deriving DecidableEq, Repr

/-- The part of `metav1.ObjectMeta` this file reads or writes. -/
structure ObjectMeta where
  Name : String
  Namespace : String
  ResourceVersion : String
  Labels : StringMap
  Annotations : StringMap
  CreationTimestamp : Time
  deriving DecidableEq, Repr

structure ListMeta where
  Continue : String
  deriving DecidableEq, Repr

structure GetOptions where
  ResourceVersion : String
  deriving DecidableEq, Repr

structure DeleteOptions where
  GracePeriodSeconds : Option Int
  OrphanDependents : Option Bool
  PropagationPolicy : Option String
  DryRun : List String
  deriving DecidableEq, Repr

/-- The zero value `metav1.DeleteOptions{}`. -/
def DeleteOptions.empty : DeleteOptions :=
  { GracePeriodSeconds := none, OrphanDependents := none, PropagationPolicy := none, DryRun := [] }

structure ListOptions where
  LabelSelector : String
  FieldSelector : String
  Watch : Bool
  ResourceVersion : String
  TimeoutSeconds : Option Int
  Limit : Int
  Continue : String
  deriving DecidableEq, Repr

/-- The zero value `metav1.ListOptions{}`. -/
def ListOptions.empty : ListOptions :=
  { LabelSelector := "", FieldSelector := "", Watch := false, ResourceVersion := "",
    TimeoutSeconds := none, Limit := 0, Continue := "" }

end metav1

/-- The field names that `specV1.Application` or `v1alpha1.ApplicationSpec` is seen
to have in this file. `specV1.Application` has the first six, `ApplicationSpec`
the last three (`Typ` is the Go field `Type`). -/
inductive Field
  | Name | Namespace | Version | Description | Labels | CreationTimestamp
  | Typ | Selector | System
  deriving DecidableEq, Repr

namespace specV1

/-- The domain record `specV1.Application`. Its declaration is outside this file:
`Typ`, `Selector` and `System` are fields it may or may not declare, and they are
only ever touched by the field copy when `Decls.shared` lists them. -/
structure Application where
  Name : String
  Namespace : String
  Version : String
  Description : String
  Labels : StringMap
  CreationTimestamp : Time
  Typ : String
  Selector : String
  System : Bool
  deriving DecidableEq, Repr

end specV1

namespace v1alpha1

/-- The record `v1alpha1.ApplicationSpec`. Its declaration is outside this file:
the file reads `Type`, `Selector` and `System`; the other six are fields it may or
may not declare, and they are only ever touched by the field copy when
`Decls.shared` lists them. -/
structure ApplicationSpec where
  Typ : String
  Selector : String
  System : Bool
  Name : String
  Namespace : String
  Version : String
  Description : String
  Labels : StringMap
  CreationTimestamp : Time
  deriving DecidableEq, Repr

/-- The zero value `v1alpha1.ApplicationSpec{}`. -/
def ApplicationSpec.empty : ApplicationSpec :=
  { Typ := "", Selector := "", System := false, Name := "", Namespace := "", Version := "",
    Description := "", Labels := none, CreationTimestamp := Time.zero }

/-- The custom resource `v1alpha1.Application`. -/
structure Application where
  TypeMeta : metav1.TypeMeta
  ObjectMeta : metav1.ObjectMeta
  Spec : ApplicationSpec
  deriving DecidableEq, Repr

structure ApplicationList where
  ListMeta : metav1.ListMeta
  Items : List Application
  deriving DecidableEq, Repr

end v1alpha1

namespace models

/-- The record `models.ListOptions`: the field `Continue` this file assigns, and the
remaining fields by name with uninterpreted values. -/
structure ListOptions where
  Continue : String
  Other : List (String × String)
  deriving DecidableEq, Repr

structure AppItem where
  Name : String
  Typ : String
  Namespace : String
  Version : String
  Labels : StringMap
  Selector : String
  CreationTimestamp : Time
  Description : String
  System : Bool
  deriving DecidableEq, Repr

structure ApplicationList where
  Total : Nat
  ListOptions : Option ListOptions
  Items : List AppItem
  deriving DecidableEq, Repr

end models

/-- What the declarations outside this file fix.

* `AnnotationDescription`: the constant `common.AnnotationDescription`.
* `SchemeGroupVersion`: the string `v1alpha1.SchemeGroupVersion.String()`.
* `shared`: the field names that `specV1.Application` and
  `v1alpha1.ApplicationSpec` both declare with convertible types; these are the
  fields `copier.Copy` moves between the two records.
* `copyListOptions`: the result of `copier.Copy` from a `models.ListOptions`
  into a fresh `metav1.ListOptions`. -/
structure Decls where
  AnnotationDescription : String
  SchemeGroupVersion : String
  shared : List Field
  copyListOptions : models.ListOptions → metav1.ListOptions

/-! ## copier.Copy

`copier.Copy(to, from)` assigns to every field of `to` the field of `from` that has
the same name, zero values included, and leaves the other fields of `to` alone.
It reports an error only for a destination that cannot be addressed; each call in
this file passes a pointer to a fresh record, so the `panic` that follows each
call is not reachable and the copy is a total function. -/

/-- The value a field of the destination has after the copy. -/
def copied {α : Type} (shared : List Field) (f : Field) (src dst : α) : α :=
  if f ∈ shared then src else dst

/-- The call `copier.Copy(res, &app.Spec)` in `toAppModel`. -/
def copySpecToApp (shared : List Field) (res : specV1.Application)
    (spec : v1alpha1.ApplicationSpec) : specV1.Application :=
  { Name := copied shared Field.Name spec.Name res.Name
    Namespace := copied shared Field.Namespace spec.Namespace res.Namespace
    Version := copied shared Field.Version spec.Version res.Version
    Description := copied shared Field.Description spec.Description res.Description
    Labels := copied shared Field.Labels spec.Labels res.Labels
    CreationTimestamp :=
      copied shared Field.CreationTimestamp spec.CreationTimestamp res.CreationTimestamp
    Typ := copied shared Field.Typ spec.Typ res.Typ
    Selector := copied shared Field.Selector spec.Selector res.Selector
    System := copied shared Field.System spec.System res.System }

/-- The call `copier.Copy(&res.Spec, app)` in `fromAppModel`. -/
def copyAppToSpec (shared : List Field) (spec : v1alpha1.ApplicationSpec)
    (app : specV1.Application) : v1alpha1.ApplicationSpec :=
  { Typ := copied shared Field.Typ app.Typ spec.Typ
    Selector := copied shared Field.Selector app.Selector spec.Selector
    System := copied shared Field.System app.System spec.System
    Name := copied shared Field.Name app.Name spec.Name
    Namespace := copied shared Field.Namespace app.Namespace spec.Namespace
    Version := copied shared Field.Version app.Version spec.Version
    Description := copied shared Field.Description app.Description spec.Description
    Labels := copied shared Field.Labels app.Labels spec.Labels
    CreationTimestamp :=
      copied shared Field.CreationTimestamp app.CreationTimestamp spec.CreationTimestamp }

/-! ## The mappings -/

/-- The local `description, _ := app.Annotations[common.AnnotationDescription]`. -/
def readDescription (d : Decls) (meta : metav1.ObjectMeta) : String :=
  (mapIndex meta.Annotations d.AnnotationDescription).1

/-- The function `toAppModel`: the fields taken from the metadata, then the copy
from the spec, then the creation time. -/
def toAppModel (d : Decls) (app : Option v1alpha1.Application) :
    Except String specV1.Application :=
  match app with
  | none => Except.error nilDeref
  | some app =>
    let description := readDescription d app.ObjectMeta
    let res : specV1.Application :=
      { Name := app.ObjectMeta.Name
        Namespace := app.ObjectMeta.Namespace
        Version := app.ObjectMeta.ResourceVersion
        Description := description
        Labels := app.ObjectMeta.Labels
        CreationTimestamp := Time.zero
        Typ := ""
        Selector := ""
        System := false }
    let res := copySpecToApp d.shared res app.Spec
    Except.ok { res with CreationTimestamp := app.ObjectMeta.CreationTimestamp.UTC }

/-- The `models.AppItem` built in the loop body of `toAppListModel`. -/
def toAppItem (d : Decls) (item : v1alpha1.Application) : models.AppItem :=
  let description := readDescription d item.ObjectMeta
  { Name := item.ObjectMeta.Name
    Typ := item.Spec.Typ
    Namespace := item.ObjectMeta.Namespace
    Version := item.ObjectMeta.ResourceVersion
    Labels := item.ObjectMeta.Labels
    Selector := item.Spec.Selector
    CreationTimestamp := item.ObjectMeta.CreationTimestamp.UTC
    Description := description
    System := item.Spec.System }

/-- The function `toAppListModel`: the loop appends one item per element of `list.Items`. -/
def toAppListModel (d : Decls) (list : Option v1alpha1.ApplicationList) :
    Except String models.ApplicationList :=
  match list with
  | none => Except.error nilDeref
  | some list =>
    let res : models.ApplicationList := { Total := 0, ListOptions := none, Items := [] }
    let res := list.Items.foldl
      (fun (res : models.ApplicationList) item =>
        { res with Items := res.Items ++ [toAppItem d item] }) res
    Except.ok { res with Total := list.Items.length }

/-- The function `fromAppModel`: the metadata, the description annotation when the
description is not empty, then the copy into the spec. -/
def fromAppModel (d : Decls) (namespace_ : String) (app : Option specV1.Application) :
    Except String v1alpha1.Application :=
  match app with
  | none => Except.error nilDeref
  | some app =>
    let res : v1alpha1.Application :=
      { TypeMeta := { Kind := "Application", APIVersion := d.SchemeGroupVersion }
        ObjectMeta :=
          { Name := app.Name
            Namespace := namespace_
            ResourceVersion := app.Version
            Labels := app.Labels
            Annotations := some []
            CreationTimestamp := Time.zero }
        Spec := v1alpha1.ApplicationSpec.empty }
    let res : v1alpha1.Application :=
      if app.Description ≠ "" then
        { res with ObjectMeta := { res.ObjectMeta with
            Annotations := some (mapAssign [] d.AnnotationDescription app.Description) } }
      else res
    Except.ok { res with Spec := copyAppToSpec d.shared res.Spec app }

/-- The function `fromListOptionsModel`; the copy returns at once when the source pointer is nil. -/
def fromListOptionsModel (d : Decls) (listOptions : Option models.ListOptions) :
    metav1.ListOptions :=
  match listOptions with
  | none => metav1.ListOptions.empty
  | some lo => d.copyListOptions lo

/-! ## The client and the operations -/

/-- The generated client for `Applications(namespace)`; the first argument of each
function is the namespace. -/
structure Client where
  Get : String → String → metav1.GetOptions → Option v1alpha1.Application × Option Error
  Create : String → v1alpha1.Application → Option v1alpha1.Application × Option Error
  Update : String → v1alpha1.Application → Option v1alpha1.Application × Option Error
  Delete : String → String → metav1.DeleteOptions → Option Error
  List : String → metav1.ListOptions → Option v1alpha1.ApplicationList × Option Error

/-- A call made on the client. -/
inductive Call
  | Get (ns name : String) (options : metav1.GetOptions)
  | Create (ns : String) (app : v1alpha1.Application)
  | Update (ns : String) (app : v1alpha1.Application)
  | Delete (ns name : String) (options : metav1.DeleteOptions)
  | List (ns : String) (options : metav1.ListOptions)
  deriving DecidableEq, Repr

/-- The run of an operation: the client calls it made, in order, and how it ended
(a panic, or the values it returned). -/
structure Run (α : Type) where
  calls : List Call
  outcome : Except String α

/-- The method `GetApplication`. -/
def GetApplication (d : Decls) (c : Client) (namespace_ name version : String) :
    Run (Option specV1.Application × Option Error) :=
  let options : metav1.GetOptions := { ResourceVersion := version }
  let r := c.Get namespace_ name options
  { calls := [Call.Get namespace_ name options]
    outcome :=
      match r.2 with
      | some err => Except.ok (none, some err)
      | none =>
        match toAppModel d r.1 with
        | Except.error p => Except.error p
        | Except.ok res => Except.ok (some res, none) }

/-- The method `CreateApplication`. -/
def CreateApplication (d : Decls) (c : Client) (namespace_ : String)
    (application : Option specV1.Application) :
    Run (Option specV1.Application × Option Error) :=
  match fromAppModel d namespace_ application with
  | Except.error p => { calls := [], outcome := Except.error p }
  | Except.ok app =>
    let r := c.Create namespace_ app
    { calls := [Call.Create namespace_ app]
      outcome :=
        match r.2 with
        | some err => Except.ok (none, some err)
        | none =>
          match toAppModel d r.1 with
          | Except.error p => Except.error p
          | Except.ok res => Except.ok (some res, none) }

/-- The method `UpdateApplication`. -/
def UpdateApplication (d : Decls) (c : Client) (namespace_ : String)
    (application : Option specV1.Application) :
    Run (Option specV1.Application × Option Error) :=
  match fromAppModel d namespace_ application with
  | Except.error p => { calls := [], outcome := Except.error p }
  | Except.ok app =>
    let r := c.Update namespace_ app
    { calls := [Call.Update namespace_ app]
      outcome :=
        match r.2 with
        | some err => Except.ok (none, some err)
        | none =>
          match toAppModel d r.1 with
          | Except.error p => Except.error p
          | Except.ok res => Except.ok (some res, none) }

/-- The method `DeleteApplication`. -/
def DeleteApplication (c : Client) (namespace_ name : String) : Run (Option Error) :=
  let options := metav1.DeleteOptions.empty
  let err := c.Delete namespace_ name options
  { calls := [Call.Delete namespace_ name options]
    outcome := Except.ok err }

/-- The run of `ListApplication`: as `Run`, with the record behind the caller's
`listOptions` pointer as it is when the operation ends. -/
structure ListRun where
  calls : List Call
  outcome : Except String (Option models.ApplicationList × Option Error)
  listOptions : Option models.ListOptions

/-- The method `ListApplication`. The assignment `listOptions.Continue = list.Continue` comes
before the error check and dereferences both pointers. -/
def ListApplication (d : Decls) (c : Client) (namespace_ : String)
    (listOptions : Option models.ListOptions) : ListRun :=
  let sent := fromListOptionsModel d listOptions
  let r := c.List namespace_ sent
  let calls := [Call.List namespace_ sent]
  match r.1, listOptions with
  | none, _ => { calls := calls, outcome := Except.error nilDeref, listOptions := listOptions }
  | some _, none => { calls := calls, outcome := Except.error nilDeref, listOptions := none }
  | some list, some lo =>
    let lo : models.ListOptions := { lo with Continue := list.ListMeta.Continue }
    match r.2 with
    | some err => { calls := calls, outcome := Except.ok (none, some err), listOptions := some lo }
    | none =>
      match toAppListModel d (some list) with
      | Except.error p => { calls := calls, outcome := Except.error p, listOptions := some lo }
      | Except.ok res =>
        { calls := calls
          outcome := Except.ok (some { res with ListOptions := some lo }, none)
          listOptions := some lo }

/-! ## Concrete data used by the checks at explicit inputs -/

/-- Declarations in which the two records share `Type`, `Selector`, `System` and
`Description`. -/
def sampleDecls : Decls :=
  { AnnotationDescription := "baetyl-cloud-description"
    SchemeGroupVersion := "cloud.baetyl.io/v1alpha1"
    shared := [Field.Typ, Field.Selector, Field.System, Field.Description]
    copyListOptions := fun lo => { metav1.ListOptions.empty with Continue := lo.Continue } }

/-- Declarations in which `ApplicationSpec` also has a field `Namespace`. -/
def namespaceDecls : Decls := { sampleDecls with shared := [Field.Namespace] }

def sampleApp : specV1.Application :=
  { Name := "app", Namespace := "other", Version := "7", Description := "demo",
    Labels := some [("tier", "edge")], CreationTimestamp := { instant := 99, loc := Location.utc },
    Typ := "container", Selector := "tier=edge", System := false }

def sampleObject : v1alpha1.Application :=
  { TypeMeta := { Kind := "Application", APIVersion := "cloud.baetyl.io/v1alpha1" }
    ObjectMeta :=
      { Name := "stored", Namespace := "default", ResourceVersion := "8", Labels := none,
        Annotations := none,
        CreationTimestamp := { instant := 5, loc := Location.zone "CST" 28800 } }
    Spec := { v1alpha1.ApplicationSpec.empty with Typ := "function", System := true } }

/-- A client whose every call fails with the error `boom`; `List` hands back an
empty list object with it. -/
def failingClient : Client :=
  { Get := fun _ _ _ => (none, some "boom")
    Create := fun _ _ => (none, some "boom")
    Update := fun _ _ => (none, some "boom")
    Delete := fun _ _ _ => some "boom"
    List := fun _ _ => (some { ListMeta := { Continue := "next" }, Items := [] }, some "boom") }

/-- A client whose `List` fails and hands back no list object, as the generated
fake client does. -/
def nilListClient : Client :=
  { failingClient with List := fun _ _ => (none, some "boom") }

/-- A client whose every call succeeds with `sampleObject`. -/
def storingClient : Client :=
  { Get := fun _ _ _ => (some sampleObject, none)
    Create := fun _ _ => (some sampleObject, none)
    Update := fun _ _ => (some sampleObject, none)
    Delete := fun _ _ _ => none
    List := fun _ _ =>
      (some { ListMeta := { Continue := "next" }, Items := [sampleObject] }, none) }

def sampleListOptions : models.ListOptions :=
  { Continue := "prev", Other := [("LabelSelector", "tier=edge"), ("Limit", "20")] }

/-! ## Lemmas shared by the theorems -/

theorem toAppModel_some (d : Decls) (k : v1alpha1.Application) :
    toAppModel d (some k) = Except.ok
      { copySpecToApp d.shared
          { Name := k.ObjectMeta.Name
            Namespace := k.ObjectMeta.Namespace
            Version := k.ObjectMeta.ResourceVersion
            Description := readDescription d k.ObjectMeta
            Labels := k.ObjectMeta.Labels
            CreationTimestamp := Time.zero
            Typ := ""
            Selector := ""
            System := false } k.Spec with
        CreationTimestamp := k.ObjectMeta.CreationTimestamp.UTC } := rfl

theorem fromAppModel_some (d : Decls) (ns : String) (app : specV1.Application) :
    fromAppModel d ns (some app) = Except.ok
      { TypeMeta := { Kind := "Application", APIVersion := d.SchemeGroupVersion }
        ObjectMeta :=
          { Name := app.Name
            Namespace := ns
            ResourceVersion := app.Version
            Labels := app.Labels
            Annotations :=
              if app.Description ≠ "" then some [(d.AnnotationDescription, app.Description)]
              else some []
            CreationTimestamp := Time.zero }
        Spec := copyAppToSpec d.shared v1alpha1.ApplicationSpec.empty app } := by
  unfold fromAppModel
  by_cases h : app.Description = "" <;> simp [h, mapAssign]

/-- Copying a field there and back over itself gives the field. -/
theorem copied_back {α : Type} (shared : List Field) (f : Field) (x z : α) :
    copied shared f (copied shared f x z) x = x := by
  unfold copied
  by_cases h : f ∈ shared <;> simp [h]

/-- When `ApplicationSpec` declares a field `Namespace` of its own, the copy in
`toAppModel` puts it over the metadata namespace. -/
theorem toAppModel_namespace_of_shared (d : Decls) (k : v1alpha1.Application)
    (h : Field.Namespace ∈ d.shared) :
    ∃ res, toAppModel d (some k) = Except.ok res ∧ res.Namespace = k.Spec.Namespace := by
  refine ⟨_, toAppModel_some d k, ?_⟩
  simp [copySpecToApp, copied, h]

/-- The loop of `toAppListModel` appends the images of the items in order. -/
theorem appendLoop_eq (d : Decls) (items : List v1alpha1.Application)
    (res : models.ApplicationList) :
    items.foldl
        (fun (res : models.ApplicationList) item =>
          { res with Items := res.Items ++ [toAppItem d item] }) res
      = { res with Items := res.Items ++ items.map (toAppItem d) } := by
  induction items generalizing res with
  | nil => simp
  | cons x xs ih => simp [List.foldl, ih]

theorem toAppListModel_some (d : Decls) (l : v1alpha1.ApplicationList) :
    toAppListModel d (some l) = Except.ok
      { Total := l.Items.length, ListOptions := none, Items := l.Items.map (toAppItem d) } := by
  simp [toAppListModel, appendLoop_eq]

theorem CreateApplication_sent (d : Decls) (c : Client) (ns : String)
    (application : Option specV1.Application) (sent : v1alpha1.Application)
    (h : fromAppModel d ns application = Except.ok sent) :
    CreateApplication d c ns application =
      { calls := [Call.Create ns sent]
        outcome :=
          match (c.Create ns sent).2 with
          | some err => Except.ok (none, some err)
          | none =>
            match toAppModel d (c.Create ns sent).1 with
            | Except.error p => Except.error p
            | Except.ok res => Except.ok (some res, none) } := by
  unfold CreateApplication
  rw [h]

theorem UpdateApplication_sent (d : Decls) (c : Client) (ns : String)
    (application : Option specV1.Application) (sent : v1alpha1.Application)
    (h : fromAppModel d ns application = Except.ok sent) :
    UpdateApplication d c ns application =
      { calls := [Call.Update ns sent]
        outcome :=
          match (c.Update ns sent).2 with
          | some err => Except.ok (none, some err)
          | none =>
            match toAppModel d (c.Update ns sent).1 with
            | Except.error p => Except.error p
            | Except.ok res => Except.ok (some res, none) } := by
  unfold UpdateApplication
  rw [h]

/-! ## Error forwarding -/

/-- C1: when the client call of GetApplication, CreateApplication or
UpdateApplication returns a non-nil error `e`, the operation returns a nil result
and exactly `e`; DeleteApplication returns exactly what the client's Delete
returned. The application pointer is arbitrary: `sent` is the object the call is
made with. -/
theorem C1_client_error_is_returned (d : Decls) (c : Client) (ns name version : String)
    (application : Option specV1.Application) (e : Error) :
    ((c.Get ns name { ResourceVersion := version }).2 = some e →
      (GetApplication d c ns name version).outcome = Except.ok (none, some e)) ∧
    (∀ sent, fromAppModel d ns application = Except.ok sent →
      (c.Create ns sent).2 = some e →
      (CreateApplication d c ns application).outcome = Except.ok (none, some e)) ∧
    (∀ sent, fromAppModel d ns application = Except.ok sent →
      (c.Update ns sent).2 = some e →
      (UpdateApplication d c ns application).outcome = Except.ok (none, some e)) ∧
    (DeleteApplication c ns name).outcome
      = Except.ok (c.Delete ns name metav1.DeleteOptions.empty) := by
  refine ⟨?_, ?_, ?_, rfl⟩
  · intro h
    simp [GetApplication, h]
  · intro sent hs h
    rw [CreateApplication_sent d c ns application sent hs]
    simp [h]
  · intro sent hs h
    rw [UpdateApplication_sent d c ns application sent hs]
    simp [h]

theorem C1_client_error_is_returned_witness :
    (GetApplication sampleDecls failingClient "ns" "app" "7").outcome
        = Except.ok (none, some "boom") ∧
    (CreateApplication sampleDecls failingClient "ns" (some sampleApp)).outcome
        = Except.ok (none, some "boom") ∧
    (UpdateApplication sampleDecls failingClient "ns" (some sampleApp)).outcome
        = Except.ok (none, some "boom") ∧
    (DeleteApplication failingClient "ns" "app").outcome = Except.ok (some "boom") :=
  have h := C1_client_error_is_returned sampleDecls failingClient "ns" "app" "7"
    (some sampleApp) "boom"
  ⟨h.1 rfl, h.2.1 _ (fromAppModel_some _ _ _) rfl, h.2.2.1 _ (fromAppModel_some _ _ _) rfl,
    h.2.2.2⟩

/-! ## Delegation -/

/-- C5: for every Kubernetes ApplicationList `l`, toAppListModel(l) returns a list
whose Total is the number of items of `l` and the length of its own Items, and
whose i-th item is the field-wise image of the i-th item of `l`: Name, Namespace,
Version (= ResourceVersion) and Labels from the object metadata, Type, Selector and
System from the spec, Description from the description annotation,
CreationTimestamp the creation time in UTC; for an empty `l` the result has no
items and Total = 0. -/
theorem C5_toAppListModel_fieldwise (d : Decls) (l : v1alpha1.ApplicationList) :
    ∃ res, toAppListModel d (some l) = Except.ok res ∧
      res.Total = l.Items.length ∧ res.Total = res.Items.length ∧
      (∀ (i : Nat) (k : v1alpha1.Application), l.Items[i]? = some k →
        res.Items[i]? = some
          ({ Name := k.ObjectMeta.Name
             Typ := k.Spec.Typ
             Namespace := k.ObjectMeta.Namespace
             Version := k.ObjectMeta.ResourceVersion
             Labels := k.ObjectMeta.Labels
             Selector := k.Spec.Selector
             CreationTimestamp := k.ObjectMeta.CreationTimestamp.UTC
             Description := (mapIndex k.ObjectMeta.Annotations d.AnnotationDescription).1
             System := k.Spec.System } : models.AppItem)) ∧
      (l.Items = [] → res.Items = [] ∧ res.Total = 0) := by
  refine ⟨_, toAppListModel_some d l, rfl, by simp, ?_, ?_⟩
  · intro i k hk
    simp [List.getElem?_map, hk, toAppItem, readDescription]
  · intro h
    simp [h]

theorem C5_toAppListModel_fieldwise_witness :
    ∃ res, toAppListModel sampleDecls
        (some { ListMeta := { Continue := "" }, Items := [sampleObject] }) = Except.ok res ∧
      res.Total = 1 ∧
      res.Items[0]? = some
        { Name := "stored", Typ := "function", Namespace := "default", Version := "8",
          Labels := none, Selector := "",
          CreationTimestamp := { instant := 5, loc := Location.utc },
          Description := "", System := true } := by
  obtain ⟨res, h, ht, -, hi, -⟩ := C5_toAppListModel_fieldwise sampleDecls
    { ListMeta := { Continue := "" }, Items := [sampleObject] }
  exact ⟨res, h, ht, hi 0 sampleObject rfl⟩

/-! ## The mapping to the custom resource -/

/-- C6: for every namespace `ns` and domain application `app`, fromAppModel(ns, app)
has Kind = "Application", APIVersion = the scheme group-version string, metadata
Name = app.Name, ResourceVersion = app.Version, Labels = app.Labels and metadata
Namespace = ns whatever app.Namespace is; its Annotations map is exactly
description-key -> app.Description when app.Description is non-empty and exactly the
empty map when it is empty. -/
theorem C6_fromAppModel_metadata (d : Decls) (ns : String) (app : specV1.Application) :
    ∃ k, fromAppModel d ns (some app) = Except.ok k ∧
      k.TypeMeta.Kind = "Application" ∧
      k.TypeMeta.APIVersion = d.SchemeGroupVersion ∧
      k.ObjectMeta.Name = app.Name ∧
      k.ObjectMeta.ResourceVersion = app.Version ∧
      k.ObjectMeta.Labels = app.Labels ∧
      k.ObjectMeta.Namespace = ns ∧
      (app.Description ≠ "" →
        k.ObjectMeta.Annotations = some [(d.AnnotationDescription, app.Description)]) ∧
      (app.Description = "" → k.ObjectMeta.Annotations = some []) := by
  refine ⟨_, fromAppModel_some d ns app, rfl, rfl, rfl, rfl, rfl, rfl, ?_, ?_⟩
  · intro h
    simp [h]
  · intro h
    simp [h]

theorem C6_fromAppModel_metadata_witness :
    (∃ k, fromAppModel sampleDecls "ns" (some sampleApp) = Except.ok k ∧
      k.ObjectMeta.Namespace = "ns" ∧
      k.ObjectMeta.Annotations = some [("baetyl-cloud-description", "demo")]) ∧
    (∃ k, fromAppModel sampleDecls "ns" (some { sampleApp with Description := "" })
        = Except.ok k ∧ k.ObjectMeta.Annotations = some []) := by
  obtain ⟨k, hk, -, -, -, -, -, hns, hd, -⟩ :=
    C6_fromAppModel_metadata sampleDecls "ns" sampleApp
  obtain ⟨k2, hk2, -, -, -, -, -, -, -, he⟩ :=
    C6_fromAppModel_metadata sampleDecls "ns" { sampleApp with Description := "" }
  exact ⟨⟨k, hk, hns, hd (by decide)⟩, ⟨k2, hk2, he rfl⟩⟩

/-! ## The round trip -/

/-- The round trip through `fromAppModel` and `toAppModel` returns Name, Version,
Labels and Description (the empty string included) as they were, whatever fields
the two record declarations share. -/
theorem round_trip_fields (d : Decls) (ns : String) (app : specV1.Application) :
    ∃ k res, fromAppModel d ns (some app) = Except.ok k ∧
      toAppModel d (some k) = Except.ok res ∧
      res.Name = app.Name ∧ res.Version = app.Version ∧ res.Labels = app.Labels ∧
      res.Description = app.Description := by
  refine ⟨_, _, fromAppModel_some d ns app, toAppModel_some d _, ?_, ?_, ?_, ?_⟩
  · exact copied_back d.shared Field.Name app.Name _
  · exact copied_back d.shared Field.Version app.Version _
  · exact copied_back d.shared Field.Labels app.Labels _
  · have hread : readDescription d
        { Name := app.Name, Namespace := ns, ResourceVersion := app.Version,
          Labels := app.Labels,
          Annotations :=
            if app.Description ≠ "" then some [(d.AnnotationDescription, app.Description)]
            else some [],
          CreationTimestamp := Time.zero } = app.Description := by
      by_cases hd : app.Description = ""
      · simp [readDescription, mapIndex, hd]
      · simp [readDescription, mapIndex, hd, List.lookup]
    show copied d.shared Field.Description
      (copied d.shared Field.Description app.Description _) (readDescription d _) = _
    rw [hread]
    exact copied_back d.shared Field.Description app.Description _

/-- The namespace after the round trip is the namespace argument when
`ApplicationSpec` has no field `Namespace`, and the namespace of the domain record
when it has one: which of the two depends on a declaration outside this file. -/
theorem round_trip_namespace (d : Decls) (ns : String) (app : specV1.Application) :
    ∃ k res, fromAppModel d ns (some app) = Except.ok k ∧
      toAppModel d (some k) = Except.ok res ∧
      res.Namespace = if Field.Namespace ∈ d.shared then app.Namespace else ns := by
  refine ⟨_, _, fromAppModel_some d ns app, toAppModel_some d _, ?_⟩
  by_cases h : Field.Namespace ∈ d.shared <;>
    simp [copySpecToApp, copyAppToSpec, copied, h]

/-- C9: for every Kubernetes Application `k`, toAppModel(k).CreationTimestamp is the
metadata creation time of `k` in UTC, whatever fields the spec copy moves;
fromAppModel leaves the metadata creation time at its zero value; hence
toAppModel(fromAppModel(ns, app)).CreationTimestamp is the zero time in UTC whatever
app.CreationTimestamp was, and differs from app.CreationTimestamp unless that was
the zero time in UTC. -/
theorem C9_creation_timestamp_one_way (d : Decls) (k : v1alpha1.Application) (ns : String)
    (app : specV1.Application) :
    (∃ res, toAppModel d (some k) = Except.ok res ∧
      res.CreationTimestamp = k.ObjectMeta.CreationTimestamp.UTC) ∧
    (∃ sent res, fromAppModel d ns (some app) = Except.ok sent ∧
      sent.ObjectMeta.CreationTimestamp = Time.zero ∧
      toAppModel d (some sent) = Except.ok res ∧
      res.CreationTimestamp = Time.zero.UTC ∧
      (app.CreationTimestamp ≠ Time.zero.UTC →
        res.CreationTimestamp ≠ app.CreationTimestamp)) := by
  refine ⟨⟨_, toAppModel_some d k, rfl⟩,
    ⟨_, _, fromAppModel_some d ns app, rfl, toAppModel_some d _, rfl, ?_⟩⟩
  intro h heq
  exact h heq.symm

theorem C9_creation_timestamp_one_way_witness :
    ∃ sent res, fromAppModel sampleDecls "ns" (some sampleApp) = Except.ok sent ∧
      toAppModel sampleDecls (some sent) = Except.ok res ∧
      res.CreationTimestamp = { instant := 0, loc := Location.utc } ∧
      res.CreationTimestamp ≠ sampleApp.CreationTimestamp := by
  obtain ⟨sent, res, h1, -, h2, h3, h4⟩ :=
    (C9_creation_timestamp_one_way sampleDecls sampleObject "ns" sampleApp).2
  exact ⟨sent, res, h1, h2, h3, h4 (by decide)⟩

/-! ## Reading the description -/

/-- C8: for a Kubernetes Application `k` (the i-th item of a list `l`) whose
Annotations map is nil or lacks the description key, toAppModel and toAppListModel
return, the description read from the annotations is the empty string (it is the
Description of the toAppModel result when ApplicationSpec has no Description field
to copy over it) and the Description of the i-th toAppListModel item is exactly "";
when the annotations hold the key with value `v`, the Description of the item is
exactly `v`. -/
theorem C8_description_read_never_fails (d : Decls) (l : v1alpha1.ApplicationList) (i : Nat)
    (k : v1alpha1.Application) (hk : l.Items[i]? = some k) :
    (∃ res, toAppModel d (some k) = Except.ok res ∧
      ((k.ObjectMeta.Annotations = none ∨
          ∃ m, k.ObjectMeta.Annotations = some m ∧ m.lookup d.AnnotationDescription = none) →
        readDescription d k.ObjectMeta = "" ∧
        (Field.Description ∉ d.shared → res.Description = ""))) ∧
    (∃ lres item, toAppListModel d (some l) = Except.ok lres ∧ lres.Items[i]? = some item ∧
      ((k.ObjectMeta.Annotations = none ∨
          ∃ m, k.ObjectMeta.Annotations = some m ∧ m.lookup d.AnnotationDescription = none) →
        item.Description = "") ∧
      (∀ m v, k.ObjectMeta.Annotations = some m →
        m.lookup d.AnnotationDescription = some v → item.Description = v)) := by
  have hread : (k.ObjectMeta.Annotations = none ∨
      ∃ m, k.ObjectMeta.Annotations = some m ∧ m.lookup d.AnnotationDescription = none) →
      readDescription d k.ObjectMeta = "" := by
    rintro (h | ⟨m, h, hm⟩)
    · simp [readDescription, mapIndex, h]
    · simp [readDescription, mapIndex, h, hm]
  refine ⟨⟨_, toAppModel_some d k, fun h => ⟨hread h, fun hs => ?_⟩⟩,
    ⟨_, toAppItem d k, toAppListModel_some d l, ?_, fun h => ?_, fun m v h hv => ?_⟩⟩
  · simp [copySpecToApp, copied, hs, hread h]
  · simp [List.getElem?_map, hk]
  · simpa [toAppItem] using hread h
  · simp [toAppItem, readDescription, mapIndex, h, hv]

theorem C8_description_read_never_fails_witness :
    (∃ res, toAppModel namespaceDecls (some sampleObject) = Except.ok res ∧
      res.Description = "") ∧
    (∃ lres item, toAppListModel namespaceDecls
        (some { ListMeta := { Continue := "" }, Items := [sampleObject] }) = Except.ok lres ∧
      lres.Items[0]? = some item ∧ item.Description = "") := by
  obtain ⟨⟨res, h1, h2⟩, ⟨lres, item, h3, h4, h5, -⟩⟩ :=
    C8_description_read_never_fails namespaceDecls
      { ListMeta := { Continue := "" }, Items := [sampleObject] } 0 sampleObject rfl
  exact ⟨⟨res, h1, (h2 (Or.inl rfl)).2 (by decide)⟩, ⟨lres, item, h3, h4, h5 (Or.inl rfl)⟩⟩

/-! ## Listing -/

/-- C7: whenever the client's List call returns a list object `l`, with or without
an error, the caller's listOptions after ListApplication has Continue = l.Continue
and every other field unchanged; when the call succeeds the returned
ApplicationList is toAppListModel(l) with its ListOptions set to that updated
listOptions, and the returned error is nil. -/
theorem C7_continue_token_forwarded (d : Decls) (c : Client) (ns : String)
    (lo : models.ListOptions) (l : v1alpha1.ApplicationList) (err : Option Error)
    (h : c.List ns (fromListOptionsModel d (some lo)) = (some l, err)) :
    ∃ lo2, (ListApplication d c ns (some lo)).listOptions = some lo2 ∧
      lo2.Continue = l.ListMeta.Continue ∧ lo2.Other = lo.Other ∧
      (err = none →
        ∃ res, toAppListModel d (some l) = Except.ok res ∧
          (ListApplication d c ns (some lo)).outcome
            = Except.ok (some { res with ListOptions := some lo2 }, none)) := by
  refine ⟨{ lo with Continue := l.ListMeta.Continue }, ?_, rfl, rfl, ?_⟩
  · cases err <;> simp [ListApplication, h, toAppListModel_some]
  · intro he
    subst he
    refine ⟨_, toAppListModel_some d l, ?_⟩
    simp [ListApplication, h, toAppListModel_some]

theorem C7_continue_token_forwarded_witness :
    (∃ lo2, (ListApplication sampleDecls failingClient "ns" (some sampleListOptions)).listOptions
        = some lo2 ∧ lo2.Continue = "next" ∧ lo2.Other = sampleListOptions.Other) ∧
    (ListApplication sampleDecls storingClient "ns" (some sampleListOptions)).outcome
      = Except.ok (some
          { Total := 1
            ListOptions := some { sampleListOptions with Continue := "next" }
            Items := [toAppItem sampleDecls sampleObject] }, none) := by
  obtain ⟨lo2, h1, h2, h3, -⟩ := C7_continue_token_forwarded sampleDecls failingClient "ns"
    sampleListOptions { ListMeta := { Continue := "next" }, Items := [] } (some "boom") rfl
  exact ⟨⟨lo2, h1, h2, h3⟩, rfl⟩

/-- C2: when the client's List call fails with error `e` and hands back a list
object, ListApplication returns (nil, e); when it fails and hands back no list
object, ListApplication makes the call and then panics on the nil pointer instead of
returning (nil, e), and the caller's listOptions is left as it was. -/
theorem C2_list_error_paths (d : Decls) (c : Client) (ns : String)
    (lo : models.ListOptions) (e : Error) :
    (∀ l, c.List ns (fromListOptionsModel d (some lo)) = (some l, some e) →
      (ListApplication d c ns (some lo)).outcome = Except.ok (none, some e)) ∧
    (c.List ns (fromListOptionsModel d (some lo)) = (none, some e) →
      (ListApplication d c ns (some lo)).calls
          = [Call.List ns (fromListOptionsModel d (some lo))] ∧
        (ListApplication d c ns (some lo)).outcome = Except.error nilDeref ∧
        (ListApplication d c ns (some lo)).listOptions = some lo) := by
  refine ⟨fun l h => ?_, fun h => ?_⟩
  · simp [ListApplication, h]
  · simp [ListApplication, h]

theorem C2_list_error_paths_witness :
    (ListApplication sampleDecls failingClient "ns" (some sampleListOptions)).outcome
      = Except.ok (none, some "boom") ∧
    (ListApplication sampleDecls nilListClient "ns" (some sampleListOptions)).outcome
      = Except.error "invalid memory address or nil pointer dereference" ∧
    (ListApplication sampleDecls nilListClient "ns" (some sampleListOptions)).outcome
      ≠ Except.ok (none, some "boom") :=
  have h := C2_list_error_paths sampleDecls
  ⟨(h failingClient "ns" sampleListOptions "boom").1 _ rfl,
    ((h nilListClient "ns" sampleListOptions "boom").2 rfl).2.1,
    by
      rw [((h nilListClient "ns" sampleListOptions "boom").2 rfl).2.1]
      exact fun hc => nomatch hc⟩

end Kube
